import Mathlib

/-!
Shallow embedding of `eden/mononoke/commit_cloud/src/references.rs`:
the reference-synchronization core of the commit-cloud workspace service.

External collaborators (the SQL entity stores, the bonsai↔hg mapping and the
derived-data provider) are modelled as oracle parameters: pure functions or
`Except`-valued values supplied by the caller.  Commit identifiers
(`HgChangesetId`, the wire type `HgId`, and the bonsai `ChangesetId`) are
modelled as strings (their hex form); the `into()` conversion from
`HgChangesetId` to `HgId` preserves the hash and is therefore the identity
on the string.  Rust `HashMap`s are modelled as association lists whose
`insert` overwrites the entry of an existing key in place, so that a map
built by successive inserts has at most one entry per key and lookup of a
key returns the most recently inserted value, matching `HashMap::insert`.
Fallible Rust functions returning `anyhow::Result` are modelled with
`Except String`.
-/

/-- Native mercurial changeset identifier (`HgChangesetId`), as its hex string. -/
abbrev HgChangesetId := String

/-- Wire-level mercurial identifier (`edenapi_types::HgId`), as its hex string. -/
abbrev HgId := String

/-- Bonsai (content-addressed) changeset identifier, as its hex string. -/
abbrev ChangesetId := String

/-- The `into()` conversion from `HgChangesetId` to `HgId`: a type conversion
that preserves the underlying hash, hence the identity on the hex string. -/
def hgIdOf (c : HgChangesetId) : HgId := c

/-- Association-list model of Rust's `HashMap`. -/
abbrev AssocMap (α β : Type) := List (α × β)

/-- `HashMap::insert`: overwrite the entry of an existing key in place,
otherwise append the new binding at the end. -/
def AssocMap.insert {α β : Type} [DecidableEq α] :
    AssocMap α β → α → β → AssocMap α β
  | [], k, v => [(k, v)]
  | (k', v') :: rest, k, v =>
    if k' = k then (k, v) :: rest else (k', v') :: AssocMap.insert rest k v

/-- `HashMap::get`: value of the first (and, for maps built by `insert`
from the empty map, only) entry with the given key. -/
def AssocMap.find? {α β : Type} [DecidableEq α] :
    AssocMap α β → α → Option β
  | [], _ => none
  | (k', v') :: rest, k => if k' = k then some v' else AssocMap.find? rest k

/-- `HashMap::keys`, in the association list's order (modelling one fixed
iteration order of the Rust map). -/
def AssocMap.keys {α β : Type} (m : AssocMap α β) : List α :=
  m.map Prod.fst

/-- Number of entries of the map carrying the given key. -/
def AssocMap.countKey {α β : Type} [DecidableEq α] (m : AssocMap α β) (k : α) : Nat :=
  List.count k (AssocMap.keys m)

/-- A workspace head row (`WorkspaceHead`). -/
structure WorkspaceHead where
  commit : HgChangesetId
deriving DecidableEq, Repr

/-- A workspace local-bookmark row (`WorkspaceLocalBookmark`):
a bookmark name and the commit it points at. -/
structure WorkspaceLocalBookmark where
  name : String
  commit : HgChangesetId
deriving DecidableEq, Repr

/-- A workspace remote-bookmark row (`WorkspaceRemoteBookmark`):
remote name, bookmark name, and the commit it points at. -/
structure WorkspaceRemoteBookmark where
  remote : String
  name : String
  commit : HgChangesetId
deriving DecidableEq, Repr

/-- A workspace snapshot row (`WorkspaceSnapshot`). -/
structure WorkspaceSnapshot where
  commit : HgChangesetId
deriving DecidableEq, Repr

/-- Wire remote bookmark (`edenapi_types::cloud::RemoteBookmark`):
`cast_references_data` fills `node` with `Some` of the converted commit. -/
structure RemoteBookmark where
  remote : String
  name : String
  node : Option HgId
deriving DecidableEq, Repr

/-- The local-bookmarks map (`LocalBookmarksMap`).  Its keys are native
commit identifiers: `collapse_into_vec` collects `local_bookmarks.keys()`
into a `Vec<HgChangesetId>` and appends them to the head-commit list
(src lines 88–94), which forces the key type; the values are the bookmark
names attached to that commit. -/
abbrev LocalBookmarksMap := AssocMap HgChangesetId (List String)

/-- The remote-bookmarks map (`RemoteBookmarksMap`).  Its keys are native
commit identifiers: `collapse_into_vec` collects `remote_bookmarks.keys()`
into a `Vec<HgChangesetId>` (src lines 80–86); the values are the remote
bookmarks at that commit. -/
abbrev RemoteBookmarksMap := AssocMap HgChangesetId (List RemoteBookmark)

/-- Raw workspace reference state as fetched from the database
(`RawReferencesData`). -/
structure RawReferencesData where
  heads : List WorkspaceHead
  local_bookmarks : List WorkspaceLocalBookmark
  remote_bookmarks : List WorkspaceRemoteBookmark
  snapshots : List WorkspaceSnapshot
deriving Repr

/-- Raw workspace information needed to create a smartlog
(`RawSmartlogData`): heads always, bookmark maps only when requested. -/
structure RawSmartlogData where
  heads : List WorkspaceHead
  local_bookmarks : Option LocalBookmarksMap
  remote_bookmarks : Option RemoteBookmarksMap
deriving Repr

/-- Smartlog inclusion flags (`edenapi_types::GetSmartlogFlag`). -/
inductive GetSmartlogFlag where
  | AddAllBookmarks
  | AddRemoteBookmarks
deriving DecidableEq, Repr

/-- Client-facing reference payload (`edenapi_types::ReferencesData`):
`version` is plain, every other field is optional-shaped. -/
structure ReferencesData where
  version : Nat
  heads : Option (List HgId)
  bookmarks : Option (AssocMap String HgId)
  heads_dates : Option (AssocMap HgId Int)
  remote_bookmarks : Option (List RemoteBookmark)
  snapshots : Option (List HgId)
  timestamp : Option Int
deriving DecidableEq, Repr

/-- Derived commit metadata (`changeset_info::ChangesetInfo`), reduced to
the author-date accessor used here: the author date as a unix timestamp
(`author_date().as_chrono().timestamp()`). -/
structure ChangesetInfo where
  author_date : Int
deriving DecidableEq, Repr

/-- Equality of `Except` results is decidable componentwise, so concrete
runs of the embedded fallible functions can be checked by evaluation. -/
instance {ε α : Type} [DecidableEq ε] [DecidableEq α] : DecidableEq (Except ε α) :=
  fun a b =>
    match a, b with
    | Except.error x, Except.error y => decidable_of_iff (x = y) (by simp)
    | Except.error _, Except.ok _ => Decidable.isFalse (by simp)
    | Except.ok _, Except.error _ => Decidable.isFalse (by simp)
    | Except.ok x, Except.ok y => decidable_of_iff (x = y) (by simp)

/-- The error message produced by `cast_references_data` when a head has no
entry in the bonsai mapping:
`anyhow!("Changeset {} not found in bonsai mapping", head.commit)`. -/
def changesetNotFound (c : HgChangesetId) : String :=
  "Changeset " ++ c ++ " not found in bonsai mapping"

/-- The per-head loop of `cast_references_data` (src lines 171–191): for each
head, push its converted commit onto `heads`, resolve it through the bonsai
mapping (failing with `changesetNotFound` when absent), derive its
`ChangesetInfo` and record the author date in `heads_dates`. -/
def castHeads (bonsai_hg_mapping : HgChangesetId → Option ChangesetId)
    (repo_derived_data : ChangesetId → Except String ChangesetInfo) :
    List WorkspaceHead → List HgId → AssocMap HgId Int →
    Except String (List HgId × AssocMap HgId Int)
  | [], heads, heads_dates => .ok (heads, heads_dates)
  | head :: rest, heads, heads_dates =>
    let heads := heads ++ [hgIdOf head.commit]
    match bonsai_hg_mapping head.commit with
    | some bonsai =>
      match repo_derived_data bonsai with
      | .ok cs_info =>
        castHeads bonsai_hg_mapping repo_derived_data rest heads
          (AssocMap.insert heads_dates (hgIdOf head.commit) cs_info.author_date)
      | .error e => .error e
    | none => .error (changesetNotFound head.commit)

/-- The local-bookmark loop of `cast_references_data` (src lines 192–194):
`bookmarks.insert(bookmark.name().clone(), (*bookmark.commit()).into())`
over the raw bookmark rows, starting from the empty map. -/
def bookmarksMapOf (local_bookmarks : List WorkspaceLocalBookmark) : AssocMap String HgId :=
  local_bookmarks.foldl
    (fun m bookmark => AssocMap.insert m bookmark.name (hgIdOf bookmark.commit)) []

/-- `cast_references_data` (src lines 157–217): cast the raw fetched state
into the client-facing payload.  The bonsai mapping and the derived-data
provider are the two external collaborators, passed as oracles. -/
def cast_references_data (raw_references_data : RawReferencesData)
    (latest_version : Nat) (version_timestamp : Int)
    (bonsai_hg_mapping : HgChangesetId → Option ChangesetId)
    (repo_derived_data : ChangesetId → Except String ChangesetInfo) :
    Except String ReferencesData :=
  match castHeads bonsai_hg_mapping repo_derived_data raw_references_data.heads [] [] with
  | .error e => .error e
  | .ok (heads, heads_dates) =>
    let bookmarks : AssocMap String HgId :=
      bookmarksMapOf raw_references_data.local_bookmarks
    let remote_bookmarks : List RemoteBookmark :=
      raw_references_data.remote_bookmarks.map
        (fun rb => { remote := rb.remote, name := rb.name, node := some (hgIdOf rb.commit) })
    let snapshots : List HgId :=
      raw_references_data.snapshots.map (fun s => hgIdOf s.commit)
    .ok { version := latest_version
          heads := some heads
          bookmarks := some bookmarks
          heads_dates := some heads_dates
          remote_bookmarks := some remote_bookmarks
          snapshots := some snapshots
          timestamp := some version_timestamp }

/-- The commit of the last bookmark row carrying the given name, if any:
the value that `HashMap::insert` leaves in the bookmarks map for that name. -/
def lastNamed (l : List WorkspaceLocalBookmark) (n : String) : Option HgChangesetId :=
  match l with
  | [] => none
  | bm :: rest =>
    match lastNamed rest n with
    | some c => some c
    | none => if bm.name = n then some bm.commit else none

/-- `RawSmartlogData::collapse_into_vec` (src lines 72–96): heads first, then
the remote-bookmark map keys when present, then the local-bookmark map keys
when present, with no deduplication. -/
def RawSmartlogData.collapse_into_vec (sl : RawSmartlogData) : List HgChangesetId :=
  let heads := sl.heads.map (fun head => head.commit)
  let heads :=
    match sl.remote_bookmarks with
    | some remote_bookmarks => heads ++ AssocMap.keys remote_bookmarks
    | none => heads
  match sl.local_bookmarks with
  | some local_bookmarks => heads ++ AssocMap.keys local_bookmarks
  | none => heads

/-- `RawSmartlogData::fetch_smartlog_references` (src lines 98–129): always
fetch heads; fetch the local-bookmarks map only under `AddAllBookmarks` and
the remote-bookmarks map only under `AddRemoteBookmarks`, leaving the
category `none` otherwise.  The three store reads are oracle parameters. -/
def RawSmartlogData.fetch_smartlog_references
    (getHeads : Except String (List WorkspaceHead))
    (getLocalBookmarksMap : Except String LocalBookmarksMap)
    (getRemoteBookmarksMap : Except String RemoteBookmarksMap)
    (flags : List GetSmartlogFlag) : Except String RawSmartlogData := do
  let heads ← getHeads
  let local_bookmarks ←
    if flags.contains GetSmartlogFlag.AddAllBookmarks then
      match getLocalBookmarksMap with
      | .ok m => Except.ok (some m)
      | .error e => Except.error e
    else
      Except.ok none
  let remote_bookmarks ←
    if flags.contains GetSmartlogFlag.AddRemoteBookmarks then
      match getRemoteBookmarksMap with
      | .ok m => Except.ok (some m)
      | .error e => Except.error e
    else
      Except.ok none
  return { heads, local_bookmarks, remote_bookmarks }

/-- `fetch_references` (src lines 133–154): four sequential store reads
(heads, local bookmarks, remote bookmarks, snapshots), each an oracle;
the first failure aborts the whole call. -/
def fetch_references
    (getHeads : Except String (List WorkspaceHead))
    (getLocalBookmarks : Except String (List WorkspaceLocalBookmark))
    (getRemoteBookmarks : Except String (List WorkspaceRemoteBookmark))
    (getSnapshots : Except String (List WorkspaceSnapshot)) :
    Except String RawReferencesData := do
  let heads ← getHeads
  let local_bookmarks ← getLocalBookmarks
  let remote_bookmarks ← getRemoteBookmarks
  let snapshots ← getSnapshots
  return { heads, local_bookmarks, remote_bookmarks, snapshots }

/-- The four reference kinds whose deltas `update_references_data` applies. -/
inductive RefKind where
  | heads
  | localBookmarks
  | remoteBookmarks
  | snapshots
deriving DecidableEq, Repr

/-- The order in which `update_references_data` applies the per-kind deltas
(src lines 227–254). -/
def refUpdateOrder : List RefKind :=
  [RefKind.heads, RefKind.localBookmarks, RefKind.remoteBookmarks, RefKind.snapshots]

/-- Client-submitted delta (`edenapi_types::UpdateReferencesParams`), the
fields `update_references_data` reads. -/
structure UpdateReferencesParams where
  removed_heads : List HgId
  new_heads : List HgId
  updated_bookmarks : AssocMap String HgId
  removed_bookmarks : List String
  updated_remote_bookmarks : List RemoteBookmark
  removed_remote_bookmarks : List RemoteBookmark
  new_snapshots : List HgId
  removed_snapshots : List HgId
deriving Repr

/-- One statement issued against the reference-update transaction, recording
which sub-update ran and with which delta, in issue order. -/
inductive RefUpdateEvent where
  | updateHeads (removed_heads new_heads : List HgId)
  | updateBookmarks (updated_bookmarks : AssocMap String HgId) (removed_bookmarks : List String)
  | updateRemoteBookmarks (updated removed : List RemoteBookmark)
  | updateSnapshots (new_snapshots removed_snapshots : List HgId)
deriving Repr

/-- The SQL transaction threaded through `update_references_data`, modelled
as the trace of statements issued inside it so far. -/
structure RefTransaction where
  events : List RefUpdateEvent
deriving Repr

/-- Modelled from the spec: `update_heads` (module `heads`, not under src/)
removes then inserts head rows inside the transaction.  Success or failure
of the store is the oracle's verdict for `RefKind.heads`; on success the
issued statement is appended to the transaction's trace. -/
def update_heads (store : RefKind → Except String Unit) (txn : RefTransaction)
    (removed_heads new_heads : List HgId) : Except String RefTransaction :=
  match store RefKind.heads with
  | .ok _ => .ok ⟨txn.events ++ [RefUpdateEvent.updateHeads removed_heads new_heads]⟩
  | .error e => .error e

/-- Modelled from the spec: `update_bookmarks` (module `local_bookmarks`,
not under src/) applies the local-bookmark delta inside the transaction. -/
def update_bookmarks (store : RefKind → Except String Unit) (txn : RefTransaction)
    (updated_bookmarks : AssocMap String HgId) (removed_bookmarks : List String) :
    Except String RefTransaction :=
  match store RefKind.localBookmarks with
  | .ok _ => .ok ⟨txn.events ++ [RefUpdateEvent.updateBookmarks updated_bookmarks removed_bookmarks]⟩
  | .error e => .error e

/-- Modelled from the spec: `update_remote_bookmarks` (module
`remote_bookmarks`, not under src/) applies the remote-bookmark delta
inside the transaction. -/
def update_remote_bookmarks (store : RefKind → Except String Unit) (txn : RefTransaction)
    (updated removed : List RemoteBookmark) : Except String RefTransaction :=
  match store RefKind.remoteBookmarks with
  | .ok _ => .ok ⟨txn.events ++ [RefUpdateEvent.updateRemoteBookmarks updated removed]⟩
  | .error e => .error e

/-- Modelled from the spec: `update_snapshots` (module `snapshots`, not
under src/) applies the snapshot delta inside the transaction. -/
def update_snapshots (store : RefKind → Except String Unit) (txn : RefTransaction)
    (new_snapshots removed_snapshots : List HgId) : Except String RefTransaction :=
  match store RefKind.snapshots with
  | .ok _ => .ok ⟨txn.events ++ [RefUpdateEvent.updateSnapshots new_snapshots removed_snapshots]⟩
  | .error e => .error e

/-- `update_references_data` (src lines 219–256): apply the four per-kind
deltas in the fixed order heads, local bookmarks, remote bookmarks,
snapshots, threading the one transaction through every sub-update, and
return the still-uncommitted transaction; the first sub-update error is
returned as is. -/
def update_references_data (store : RefKind → Except String Unit)
    (txn : RefTransaction) (params : UpdateReferencesParams) :
    Except String RefTransaction := do
  let txn ← update_heads store txn params.removed_heads params.new_heads
  let txn ← update_bookmarks store txn params.updated_bookmarks params.removed_bookmarks
  let txn ← update_remote_bookmarks store txn params.updated_remote_bookmarks
      params.removed_remote_bookmarks
  let txn ← update_snapshots store txn params.new_snapshots params.removed_snapshots
  return txn

/-- The seven tables touched by `rename_all`, one per `Update::<Kind>`
instantiation at src lines 269–290. -/
inductive Table where
  | heads
  | localBookmarks
  | remoteBookmarks
  | snapshots
  | checkoutLocations
  | history
  | versions
deriving DecidableEq, Repr

/-- The six non-version tables, in the order `rename_all` updates them
before the final version-row update. -/
def renameOrder : List Table :=
  [Table.heads, Table.localBookmarks, Table.remoteBookmarks, Table.snapshots,
   Table.checkoutLocations, Table.history]

/-- `UpdateVersionArgs` as used by `rename_all`: the name-only
`WorkspaceName` variant, carrying nothing but the new workspace name (no
timestamp or commit fields). -/
inductive UpdateVersionArgs where
  | workspaceName (new_workspace : String)
deriving DecidableEq, Repr

/-- One statement issued against the rename transaction: either a rename of
one of the six non-version tables with `UpdateWorkspaceNameArgs`, or the
version-row update with its `UpdateVersionArgs`. -/
inductive RenameEvent where
  | tableRename (table : Table) (new_workspace : String)
  | versionUpdate (args : UpdateVersionArgs)
deriving DecidableEq, Repr

/-- The SQL transaction threaded through `rename_all`, modelled as the trace
of statements issued inside it so far. -/
structure RenameTransaction where
  events : List RenameEvent
deriving DecidableEq, Repr

/-- Modelled from the spec: `Update::<Kind>::update` with
`UpdateWorkspaceNameArgs` (trait impls under `sql/`, not under src/)
rewrites the workspace-name key of one table inside the transaction.  The
store oracle gives the verdict and the affected-row count per table; on
success the statement is appended to the trace. -/
def tableUpdate (store : Table → Except String Nat) (table : Table)
    (new_workspace : String) (txn : RenameTransaction) :
    Except String (RenameTransaction × Nat) :=
  match store table with
  | .ok n => .ok (⟨txn.events ++ [RenameEvent.tableRename table new_workspace]⟩, n)
  | .error e => .error e

/-- Modelled from the spec: `Update::<WorkspaceVersion>::update` with
`UpdateVersionArgs::WorkspaceName` (under `sql/versions_ops`, not under
src/), the name-only version-row update. -/
def versionUpdate (store : Table → Except String Nat) (args : UpdateVersionArgs)
    (txn : RenameTransaction) : Except String (RenameTransaction × Nat) :=
  match store Table.versions with
  | .ok n => .ok (⟨txn.events ++ [RenameEvent.versionUpdate args]⟩, n)
  | .error e => .error e

/-- `rename_all` (src lines 258–292): start a fresh transaction, rename the
six non-version tables in order, then update the version row last with the
name-only `UpdateVersionArgs::WorkspaceName` variant, returning the
uncommitted transaction and the version update's affected-row count. -/
def rename_all (store : Table → Except String Nat)
    (start_transaction : Except String RenameTransaction)
    (new_workspace : String) : Except String (RenameTransaction × Nat) := do
  let txn ← start_transaction
  let (txn, _) ← tableUpdate store Table.heads new_workspace txn
  let (txn, _) ← tableUpdate store Table.localBookmarks new_workspace txn
  let (txn, _) ← tableUpdate store Table.remoteBookmarks new_workspace txn
  let (txn, _) ← tableUpdate store Table.snapshots new_workspace txn
  let (txn, _) ← tableUpdate store Table.checkoutLocations new_workspace txn
  let (txn, _) ← tableUpdate store Table.history new_workspace txn
  let (txn, affected_rows) ←
    versionUpdate store (UpdateVersionArgs.workspaceName new_workspace) txn
  return (txn, affected_rows)

/-- Modelled from the spec: the `get_as_map` collaborator for local
bookmarks (module `local_bookmarks`, not under src/).  Its key type is
forced by src usage — `collapse_into_vec` collects this map's keys into a
`Vec<HgChangesetId>` (src lines 88–94) — so the map groups the workspace's
bookmark rows by commit, each key carrying the bookmark names at that
commit. -/
def localBookmarksAsMap (rows : List WorkspaceLocalBookmark) : LocalBookmarksMap :=
  rows.foldl
    (fun m bm =>
      match AssocMap.find? m bm.commit with
      | some names => AssocMap.insert m bm.commit (names ++ [bm.name])
      | none => AssocMap.insert m bm.commit [bm.name])
    []

/-- Concrete bonsai-mapping collaborator for witnesses: maps the native
commits `aa` and `cc` to the distinct content addresses `bb` and `dd`,
and knows no other commit. -/
def exMapping : HgChangesetId → Option ChangesetId :=
  fun c => if c = "aa" then some "bb" else if c = "cc" then some "dd" else none

/-- Concrete derived-data collaborator for witnesses: author date 5 for
`bb`, author date 6 for `dd`. -/
def exDerive : ChangesetId → Except String ChangesetInfo :=
  fun b =>
    if b = "bb" then Except.ok { author_date := 5 }
    else if b = "dd" then Except.ok { author_date := 6 }
    else Except.error "derivation failed"

/-- Concrete raw state with the two heads `aa` and `cc` and nothing else. -/
def exRawTwoHeads : RawReferencesData :=
  { heads := [{ commit := "aa" }, { commit := "cc" }]
    local_bookmarks := []
    remote_bookmarks := []
    snapshots := [] }

/-- Concrete raw state with the single head `aa` and nothing else. -/
def exRawOneHead : RawReferencesData :=
  { heads := [{ commit := "aa" }]
    local_bookmarks := []
    remote_bookmarks := []
    snapshots := [] }

/-- Concrete raw state whose second head `zz` has no bonsai-mapping entry. -/
def exRawMissing : RawReferencesData :=
  { heads := [{ commit := "aa" }, { commit := "zz" }]
    local_bookmarks := []
    remote_bookmarks := []
    snapshots := [] }

/-- Concrete empty raw state. -/
def exRawEmpty : RawReferencesData :=
  { heads := [], local_bookmarks := [], remote_bookmarks := [], snapshots := [] }

/-- Concrete raw state with two local bookmarks sharing the name `x`:
first pointing at `aa`, later at `cc`. -/
def exRawDupBookmarks : RawReferencesData :=
  { heads := []
    local_bookmarks := [{ name := "x", commit := "aa" }, { name := "x", commit := "cc" }]
    remote_bookmarks := []
    snapshots := [] }

/-- C5: for every raw smartlog state, `collapse_into_vec` is the plain
concatenation of the head commits (in fetch order), then the
remote-bookmark map keys when that category is present, then the
local-bookmark map keys when present; being a concatenation, duplicates
across categories are preserved and nothing is removed. -/
theorem collapse_into_vec_concatenation (sl : RawSmartlogData) :
    sl.collapse_into_vec =
      sl.heads.map (fun head => head.commit)
        ++ (match sl.remote_bookmarks with
            | some m => AssocMap.keys m
            | none => [])
        ++ (match sl.local_bookmarks with
            | some m => AssocMap.keys m
            | none => []) := by
  unfold RawSmartlogData.collapse_into_vec
  cases sl.remote_bookmarks <;> cases sl.local_bookmarks <;> simp

/-- C6: `fetch_smartlog_references` fetches heads unconditionally, fills
the local-bookmark category exactly when `AddAllBookmarks` is among the
flags and the remote-bookmark category exactly when `AddRemoteBookmarks`
is, and represents an unrequested category as `none`, never as an empty
container. -/
theorem fetch_smartlog_references_flag_gating
    (hs : List WorkspaceHead) (lm : LocalBookmarksMap) (rm : RemoteBookmarksMap)
    (flags : List GetSmartlogFlag) :
    RawSmartlogData.fetch_smartlog_references
        (Except.ok hs) (Except.ok lm) (Except.ok rm) flags
      = Except.ok
          { heads := hs
            local_bookmarks :=
              if flags.contains GetSmartlogFlag.AddAllBookmarks then some lm else none
            remote_bookmarks :=
              if flags.contains GetSmartlogFlag.AddRemoteBookmarks then some rm else none } := by
  unfold RawSmartlogData.fetch_smartlog_references
  cases h1 : flags.contains GetSmartlogFlag.AddAllBookmarks <;>
    cases h2 : flags.contains GetSmartlogFlag.AddRemoteBookmarks <;>
      simp [h1, h2, Bind.bind, Except.bind, Pure.pure, Except.pure]

/-- C8: `fetch_references` reads heads, local bookmarks, remote bookmarks
and snapshots in that order and returns the combined state exactly when all
four reads succeed; the first failing read's storage error is returned as
the whole call's result, whatever the later reads would have done, and no
partial state is returned. -/
theorem fetch_references_all_or_nothing :
    (∀ (hs : List WorkspaceHead) (lbs : List WorkspaceLocalBookmark)
        (rbs : List WorkspaceRemoteBookmark) (ss : List WorkspaceSnapshot),
      fetch_references (Except.ok hs) (Except.ok lbs) (Except.ok rbs) (Except.ok ss)
        = Except.ok
            { heads := hs, local_bookmarks := lbs, remote_bookmarks := rbs, snapshots := ss })
    ∧ (∀ (e : String) gl gr gs,
        fetch_references (Except.error e) gl gr gs = Except.error e)
    ∧ (∀ hs (e : String) gr gs,
        fetch_references (Except.ok hs) (Except.error e) gr gs = Except.error e)
    ∧ (∀ hs lbs (e : String) gs,
        fetch_references (Except.ok hs) (Except.ok lbs) (Except.error e) gs = Except.error e)
    ∧ (∀ hs lbs rbs (e : String),
        fetch_references (Except.ok hs) (Except.ok lbs) (Except.ok rbs) (Except.error e)
          = Except.error e) := by
  refine ⟨?_, ?_, ?_, ?_, ?_⟩ <;> intros <;> rfl

/-- C9: whenever `cast_references_data` succeeds, every optional field of
the payload is `some` — an empty category is a present empty container —
and `version` and `timestamp` are the values passed in by the caller. -/
theorem cast_references_data_fields_present
    (raw : RawReferencesData) (v : Nat) (ts : Int)
    (mapping : HgChangesetId → Option ChangesetId)
    (derive : ChangesetId → Except String ChangesetInfo)
    (payload : ReferencesData)
    (h : cast_references_data raw v ts mapping derive = Except.ok payload) :
    payload.version = v ∧ payload.timestamp = some ts
      ∧ payload.heads.isSome = true ∧ payload.bookmarks.isSome = true
      ∧ payload.heads_dates.isSome = true ∧ payload.remote_bookmarks.isSome = true
      ∧ payload.snapshots.isSome = true := by
  cases hc : castHeads mapping derive raw.heads [] [] with
  | error e => simp [cast_references_data, hc] at h
  | ok res =>
    obtain ⟨heads, dates⟩ := res
    simp only [cast_references_data, hc] at h
    cases h
    simp

/-- Witness for C9 at a concrete input: the empty raw state casts to a
payload whose optional fields are all present-empty and whose version and
timestamp are the caller's values. -/
theorem cast_references_data_fields_present_witness :
    ({ version := 7, heads := some [], bookmarks := some [], heads_dates := some [],
       remote_bookmarks := some [], snapshots := some [],
       timestamp := some 9 } : ReferencesData).version = 7
      ∧ ({ version := 7, heads := some [], bookmarks := some [], heads_dates := some [],
           remote_bookmarks := some [], snapshots := some [],
           timestamp := some 9 } : ReferencesData).timestamp = some 9
      ∧ ({ version := 7, heads := some [], bookmarks := some [], heads_dates := some [],
           remote_bookmarks := some [], snapshots := some [],
           timestamp := some 9 } : ReferencesData).heads.isSome = true
      ∧ ({ version := 7, heads := some [], bookmarks := some [], heads_dates := some [],
           remote_bookmarks := some [], snapshots := some [],
           timestamp := some 9 } : ReferencesData).bookmarks.isSome = true
      ∧ ({ version := 7, heads := some [], bookmarks := some [], heads_dates := some [],
           remote_bookmarks := some [], snapshots := some [],
           timestamp := some 9 } : ReferencesData).heads_dates.isSome = true
      ∧ ({ version := 7, heads := some [], bookmarks := some [], heads_dates := some [],
           remote_bookmarks := some [], snapshots := some [],
           timestamp := some 9 } : ReferencesData).remote_bookmarks.isSome = true
      ∧ ({ version := 7, heads := some [], bookmarks := some [], heads_dates := some [],
           remote_bookmarks := some [], snapshots := some [],
           timestamp := some 9 } : ReferencesData).snapshots.isSome = true :=
  cast_references_data_fields_present exRawEmpty 7 9 exMapping exDerive _ (by rfl)

/-- C4: `update_references_data` threads the one transaction through the
four per-kind sub-updates in the fixed order heads, local bookmarks,
remote bookmarks, snapshots — on success the transaction's trace is
extended by exactly those four statements in that order and returned
uncommitted — and when the first failing sub-update is reached the call
returns that error; the store's behavior on the kinds after the failing
one (left unconstrained here) can no longer influence the result, so no
later sub-update is applied. -/
theorem update_references_data_order_and_abort :
    (∀ (store : RefKind → Except String Unit) (txn : RefTransaction)
        (params : UpdateReferencesParams),
      store RefKind.heads = Except.ok () →
      store RefKind.localBookmarks = Except.ok () →
      store RefKind.remoteBookmarks = Except.ok () →
      store RefKind.snapshots = Except.ok () →
      update_references_data store txn params
        = Except.ok
            ⟨txn.events ++
              [RefUpdateEvent.updateHeads params.removed_heads params.new_heads,
               RefUpdateEvent.updateBookmarks params.updated_bookmarks
                 params.removed_bookmarks,
               RefUpdateEvent.updateRemoteBookmarks params.updated_remote_bookmarks
                 params.removed_remote_bookmarks,
               RefUpdateEvent.updateSnapshots params.new_snapshots
                 params.removed_snapshots]⟩)
    ∧ (∀ (store : RefKind → Except String Unit) (txn : RefTransaction)
        (params : UpdateReferencesParams)
        (pre : List RefKind) (k : RefKind) (post : List RefKind) (e : String),
        refUpdateOrder = pre ++ k :: post →
        (∀ u ∈ pre, store u = Except.ok ()) →
        store k = Except.error e →
        update_references_data store txn params = Except.error e) := by
  constructor
  · intro store txn params h1 h2 h3 h4
    simp [update_references_data, update_heads, update_bookmarks, update_remote_bookmarks,
      update_snapshots, h1, h2, h3, h4, Bind.bind, Except.bind, Pure.pure, Except.pure]
  · intro store txn params pre k post e hEq hpre herr
    rcases pre with _ | ⟨a1, _ | ⟨a2, _ | ⟨a3, _ | ⟨a4, rest⟩⟩⟩⟩ <;>
      simp only [refUpdateOrder, List.cons_append, List.nil_append, List.cons.injEq] at hEq
    · obtain ⟨rfl, -⟩ := hEq
      simp [update_references_data, update_heads, herr, Bind.bind, Except.bind]
    · obtain ⟨rfl, rfl, -⟩ := hEq
      have h1 := hpre RefKind.heads (by simp)
      simp [update_references_data, update_heads, update_bookmarks, h1, herr,
        Bind.bind, Except.bind]
    · obtain ⟨rfl, rfl, rfl, -⟩ := hEq
      have h1 := hpre RefKind.heads (by simp)
      have h2 := hpre RefKind.localBookmarks (by simp)
      simp [update_references_data, update_heads, update_bookmarks, update_remote_bookmarks,
        h1, h2, herr, Bind.bind, Except.bind]
    · obtain ⟨rfl, rfl, rfl, rfl, -⟩ := hEq
      have h1 := hpre RefKind.heads (by simp)
      have h2 := hpre RefKind.localBookmarks (by simp)
      have h3 := hpre RefKind.remoteBookmarks (by simp)
      simp [update_references_data, update_heads, update_bookmarks, update_remote_bookmarks,
        update_snapshots, h1, h2, h3, herr, Bind.bind, Except.bind]
    · simp at hEq

/-- Witness for C4 at concrete inputs: with an all-succeeding store the
four statements are issued in order onto the fresh transaction, and with a
store failing at local bookmarks the call returns that error. -/
theorem update_references_data_order_and_abort_witness :
    update_references_data (fun _ => Except.ok ()) ⟨[]⟩
        { removed_heads := ["aa"], new_heads := ["cc"], updated_bookmarks := [("x", "aa")],
          removed_bookmarks := ["y"], updated_remote_bookmarks := [],
          removed_remote_bookmarks := [], new_snapshots := ["ee"], removed_snapshots := [] }
      = Except.ok
          ⟨[] ++
            [RefUpdateEvent.updateHeads ["aa"] ["cc"],
             RefUpdateEvent.updateBookmarks [("x", "aa")] ["y"],
             RefUpdateEvent.updateRemoteBookmarks [] [],
             RefUpdateEvent.updateSnapshots ["ee"] []]⟩
    ∧ update_references_data
        (fun k => if k = RefKind.heads then Except.ok () else Except.error "boom") ⟨[]⟩
        { removed_heads := ["aa"], new_heads := ["cc"], updated_bookmarks := [("x", "aa")],
          removed_bookmarks := ["y"], updated_remote_bookmarks := [],
          removed_remote_bookmarks := [], new_snapshots := ["ee"], removed_snapshots := [] }
      = Except.error "boom" :=
  ⟨update_references_data_order_and_abort.1 _ _ _ rfl rfl rfl rfl,
   update_references_data_order_and_abort.2 _ _ _
     [RefKind.heads] RefKind.localBookmarks [RefKind.remoteBookmarks, RefKind.snapshots]
     "boom" rfl (by intro u hu; simp at hu; subst hu; rfl) rfl⟩

/-- C3: `rename_all` updates the tables in the order heads, local
bookmarks, remote bookmarks, snapshots, checkout locations, history, and
performs the version-row update last, with the name-only
`UpdateVersionArgs.workspaceName` variant, returning the version update's
affected-row count — on success the trace holds exactly those seven
statements in that order.  When an earlier table update fails (the tables
before it having succeeded), the call returns that error; the store's
behavior on the version table is left unconstrained, so the result cannot
depend on it: the version row is touched only after every other table
update has succeeded. -/
theorem rename_all_order_and_abort :
    (∀ (store : Table → Except String Nat) (t0 : RenameTransaction) (w : String)
        (n1 n2 n3 n4 n5 n6 n7 : Nat),
      store Table.heads = Except.ok n1 →
      store Table.localBookmarks = Except.ok n2 →
      store Table.remoteBookmarks = Except.ok n3 →
      store Table.snapshots = Except.ok n4 →
      store Table.checkoutLocations = Except.ok n5 →
      store Table.history = Except.ok n6 →
      store Table.versions = Except.ok n7 →
      rename_all store (Except.ok t0) w
        = Except.ok
            (⟨t0.events ++
              [RenameEvent.tableRename Table.heads w,
               RenameEvent.tableRename Table.localBookmarks w,
               RenameEvent.tableRename Table.remoteBookmarks w,
               RenameEvent.tableRename Table.snapshots w,
               RenameEvent.tableRename Table.checkoutLocations w,
               RenameEvent.tableRename Table.history w,
               RenameEvent.versionUpdate (UpdateVersionArgs.workspaceName w)]⟩, n7))
    ∧ (∀ (store : Table → Except String Nat) (t0 : RenameTransaction) (w : String)
        (pre : List Table) (t : Table) (post : List Table) (e : String),
        renameOrder = pre ++ t :: post →
        (∀ u ∈ pre, ∃ n, store u = Except.ok n) →
        store t = Except.error e →
        rename_all store (Except.ok t0) w = Except.error e) := by
  constructor
  · intro store t0 w n1 n2 n3 n4 n5 n6 n7 h1 h2 h3 h4 h5 h6 h7
    simp [rename_all, tableUpdate, versionUpdate, h1, h2, h3, h4, h5, h6, h7,
      Bind.bind, Except.bind, Pure.pure, Except.pure]
  · intro store t0 w pre t post e hEq hpre herr
    rcases pre with _ | ⟨a1, _ | ⟨a2, _ | ⟨a3, _ | ⟨a4, _ | ⟨a5, _ | ⟨a6, rest⟩⟩⟩⟩⟩⟩ <;>
      simp only [renameOrder, List.cons_append, List.nil_append, List.cons.injEq] at hEq
    · obtain ⟨rfl, -⟩ := hEq
      simp [rename_all, tableUpdate, herr, Bind.bind, Except.bind]
    · obtain ⟨rfl, rfl, -⟩ := hEq
      obtain ⟨n1, h1⟩ := hpre Table.heads (by simp)
      simp [rename_all, tableUpdate, h1, herr, Bind.bind, Except.bind]
    · obtain ⟨rfl, rfl, rfl, -⟩ := hEq
      obtain ⟨n1, h1⟩ := hpre Table.heads (by simp)
      obtain ⟨n2, h2⟩ := hpre Table.localBookmarks (by simp)
      simp [rename_all, tableUpdate, h1, h2, herr, Bind.bind, Except.bind]
    · obtain ⟨rfl, rfl, rfl, rfl, -⟩ := hEq
      obtain ⟨n1, h1⟩ := hpre Table.heads (by simp)
      obtain ⟨n2, h2⟩ := hpre Table.localBookmarks (by simp)
      obtain ⟨n3, h3⟩ := hpre Table.remoteBookmarks (by simp)
      simp [rename_all, tableUpdate, h1, h2, h3, herr, Bind.bind, Except.bind]
    · obtain ⟨rfl, rfl, rfl, rfl, rfl, -⟩ := hEq
      obtain ⟨n1, h1⟩ := hpre Table.heads (by simp)
      obtain ⟨n2, h2⟩ := hpre Table.localBookmarks (by simp)
      obtain ⟨n3, h3⟩ := hpre Table.remoteBookmarks (by simp)
      obtain ⟨n4, h4⟩ := hpre Table.snapshots (by simp)
      simp [rename_all, tableUpdate, h1, h2, h3, h4, herr, Bind.bind, Except.bind]
    · obtain ⟨rfl, rfl, rfl, rfl, rfl, rfl, -⟩ := hEq
      obtain ⟨n1, h1⟩ := hpre Table.heads (by simp)
      obtain ⟨n2, h2⟩ := hpre Table.localBookmarks (by simp)
      obtain ⟨n3, h3⟩ := hpre Table.remoteBookmarks (by simp)
      obtain ⟨n4, h4⟩ := hpre Table.snapshots (by simp)
      obtain ⟨n5, h5⟩ := hpre Table.checkoutLocations (by simp)
      simp [rename_all, tableUpdate, h1, h2, h3, h4, h5, herr, Bind.bind, Except.bind]
    · simp at hEq

/-- Witness for C3 at concrete inputs: with an all-succeeding store the
seven statements land in the trace in order with the version update last,
returning the version update's affected-row count, and with a store whose
only failure is the history table the call returns that error even though
the version update would have succeeded. -/
theorem rename_all_order_and_abort_witness :
    rename_all (fun _ => Except.ok 3) (Except.ok ⟨[]⟩) "w"
      = Except.ok
          (⟨[] ++
            [RenameEvent.tableRename Table.heads "w",
             RenameEvent.tableRename Table.localBookmarks "w",
             RenameEvent.tableRename Table.remoteBookmarks "w",
             RenameEvent.tableRename Table.snapshots "w",
             RenameEvent.tableRename Table.checkoutLocations "w",
             RenameEvent.tableRename Table.history "w",
             RenameEvent.versionUpdate (UpdateVersionArgs.workspaceName "w")]⟩, 3)
    ∧ rename_all
        (fun t => if t = Table.history then Except.error "lost" else Except.ok 3)
        (Except.ok ⟨[]⟩) "w"
      = Except.error "lost" :=
  ⟨rename_all_order_and_abort.1 _ _ _ 3 3 3 3 3 3 3 rfl rfl rfl rfl rfl rfl rfl,
   rename_all_order_and_abort.2 _ _ _
     [Table.heads, Table.localBookmarks, Table.remoteBookmarks, Table.snapshots,
      Table.checkoutLocations] Table.history [] "lost" rfl
     (by intro u hu; simp at hu; exact ⟨3, by rcases hu with rfl | rfl | rfl | rfl | rfl <;> rfl⟩)
     rfl⟩

/-- If the per-head loop succeeds, every head resolved through the bonsai
mapping: no head with a missing mapping can be silently passed over. -/
theorem castHeads_ok_resolves (m : HgChangesetId → Option ChangesetId)
    (d : ChangesetId → Except String ChangesetInfo) :
    ∀ (l : List WorkspaceHead) (acc : List HgId) (dates : AssocMap HgId Int)
      (res : List HgId × AssocMap HgId Int),
      castHeads m d l acc dates = Except.ok res →
      ∀ h ∈ l, ∃ b, m h.commit = some b := by
  intro l
  induction l with
  | nil => intro acc dates res _ h hmem; simp at hmem
  | cons hd tl ih =>
    intro acc dates res hcast h hmem
    cases hm : m hd.commit with
    | none =>
      simp only [castHeads, hm] at hcast
      exact Except.noConfusion hcast
    | some b =>
      cases hder : d b with
      | error e =>
        simp only [castHeads, hm, hder] at hcast
        exact Except.noConfusion hcast
      | ok info =>
        simp only [castHeads, hm, hder] at hcast
        rcases List.mem_cons.mp hmem with rfl | hmem
        · exact ⟨b, hm⟩
        · exact ih _ _ _ hcast h hmem

/-- The per-head loop fails with the `changesetNotFound` error of the first
head whose bonsai mapping is missing, once the heads before it have
resolved and derived successfully. -/
theorem castHeads_first_unmapped (m : HgChangesetId → Option ChangesetId)
    (d : ChangesetId → Except String ChangesetInfo) :
    ∀ (pre : List WorkspaceHead) (h : WorkspaceHead) (post : List WorkspaceHead)
      (acc : List HgId) (dates : AssocMap HgId Int),
      (∀ h' ∈ pre, ∃ b info, m h'.commit = some b ∧ d b = Except.ok info) →
      m h.commit = none →
      castHeads m d (pre ++ h :: post) acc dates
        = Except.error (changesetNotFound h.commit) := by
  intro pre
  induction pre with
  | nil => intro h post acc dates _ hmiss; simp [castHeads, hmiss]
  | cons p pre ih =>
    intro h post acc dates hpre hmiss
    obtain ⟨b, info, hm, hder⟩ := hpre p (List.mem_cons_self p pre)
    simp only [List.cons_append, castHeads, hm, hder]
    exact ih h post _ _ (fun h' hh => hpre h' (List.mem_cons_of_mem p hh)) hmiss

/-- The per-head loop succeeds whenever every head resolves through the
bonsai mapping and derives its metadata successfully. -/
theorem castHeads_ok_of_resolvable (m : HgChangesetId → Option ChangesetId)
    (d : ChangesetId → Except String ChangesetInfo) :
    ∀ (l : List WorkspaceHead) (acc : List HgId) (dates : AssocMap HgId Int),
      (∀ h ∈ l, ∃ b info, m h.commit = some b ∧ d b = Except.ok info) →
      ∃ res, castHeads m d l acc dates = Except.ok res := by
  intro l
  induction l with
  | nil => intro acc dates _; exact ⟨(acc, dates), rfl⟩
  | cons hd tl ih =>
    intro acc dates hres
    obtain ⟨b, info, hm, hder⟩ := hres hd (List.mem_cons_self hd tl)
    obtain ⟨res, hrec⟩ :=
      ih (acc ++ [hgIdOf hd.commit])
        (AssocMap.insert dates (hgIdOf hd.commit) info.author_date)
        (fun h hh => hres h (List.mem_cons_of_mem hd hh))
    exact ⟨res, by simp only [castHeads, hm, hder]; exact hrec⟩

/-- C2: if some head of the raw state has no entry in the bonsai mapping,
`cast_references_data` fails — an error is returned, never a partial
payload with that head dropped — and when that head is the first failing
one (the heads before it resolving and deriving successfully) the error is
the `changesetNotFound` message naming that commit. -/
theorem cast_references_data_missing_mapping :
    (∀ (raw : RawReferencesData) (v : Nat) (ts : Int)
        (mapping : HgChangesetId → Option ChangesetId)
        (derive : ChangesetId → Except String ChangesetInfo) (h : WorkspaceHead),
      h ∈ raw.heads → mapping h.commit = none →
      ∃ e, cast_references_data raw v ts mapping derive = Except.error e)
    ∧ (∀ (raw : RawReferencesData) (v : Nat) (ts : Int)
        (mapping : HgChangesetId → Option ChangesetId)
        (derive : ChangesetId → Except String ChangesetInfo)
        (pre : List WorkspaceHead) (h : WorkspaceHead) (post : List WorkspaceHead),
        raw.heads = pre ++ h :: post →
        (∀ h' ∈ pre, ∃ b info, mapping h'.commit = some b ∧ derive b = Except.ok info) →
        mapping h.commit = none →
        cast_references_data raw v ts mapping derive
          = Except.error (changesetNotFound h.commit)) := by
  constructor
  · intro raw v ts mapping derive h hmem hmiss
    cases hc : castHeads mapping derive raw.heads [] [] with
    | error e => exact ⟨e, by simp [cast_references_data, hc]⟩
    | ok res =>
      obtain ⟨b, hb⟩ := castHeads_ok_resolves mapping derive raw.heads [] [] res hc h hmem
      rw [hmiss] at hb
      cases hb
  · intro raw v ts mapping derive pre h post hheads hpre hmiss
    have hch := castHeads_first_unmapped mapping derive pre h post [] [] hpre hmiss
    rw [← hheads] at hch
    simp [cast_references_data, hch]

/-- Witness for C2 at a concrete input: the raw state `[aa, zz]` whose
second head `zz` has no mapping entry (while `aa` resolves and derives)
casts to exactly the `changesetNotFound` error naming `zz`. -/
theorem cast_references_data_missing_mapping_witness :
    cast_references_data exRawMissing 7 9 exMapping exDerive
      = Except.error (changesetNotFound "zz") :=
  cast_references_data_missing_mapping.2 exRawMissing 7 9 exMapping exDerive
    [{ commit := "aa" }] { commit := "zz" } [] rfl
    (by
      intro h' hh
      simp at hh
      subst hh
      exact ⟨"bb", { author_date := 5 }, by decide, by decide⟩)
    (by decide)

/-- C1 counterexample: the raw state with the single head `aa`, whose
content address under the mapping collaborator is `bb` (author date 5).
The payload's `heads` is `[aa]` — the raw head's own identifier carried
over by the `into()` conversion — not the mapped content address `[bb]`,
and `heads_dates` is likewise keyed by `aa`, not `bb`: the claim that the
payload holds the mapping collaborator's content addresses is false. -/
theorem cast_references_data_heads_not_mapped :
    Except.map ReferencesData.heads
        (cast_references_data exRawOneHead 7 9 exMapping exDerive)
      = Except.ok (some ["aa"])
    ∧ ¬ (Except.map ReferencesData.heads
          (cast_references_data exRawOneHead 7 9 exMapping exDerive)
        = Except.ok (some ["bb"]))
    ∧ Except.map ReferencesData.heads_dates
        (cast_references_data exRawOneHead 7 9 exMapping exDerive)
      = Except.ok (some [("aa", 5)])
    ∧ ¬ (Except.map ReferencesData.heads_dates
          (cast_references_data exRawOneHead 7 9 exMapping exDerive)
        = Except.ok (some [("bb", 5)])) := by
  refine ⟨by decide, by decide, by decide, by decide⟩

/-- C1 (amended): for a raw state whose heads are `[H1, H2]`, with content
addresses `[C1, C2]` under the mapping collaborator and author dates
`[T1, T2]` under the derived-metadata collaborator, casting succeeds and
produces `heads = [H1, H2]` — one identifier per raw head, in original
order, each the raw head's own identifier carried into the wire type, not
the mapped content address — and `heads_dates = {H1: T1, H2: T2}`, keyed
by those same identifiers. -/
theorem cast_references_data_two_heads
    (h1 h2 : HgChangesetId) (c1 c2 : ChangesetId) (t1 t2 : Int)
    (raw : RawReferencesData) (v : Nat) (ts : Int)
    (mapping : HgChangesetId → Option ChangesetId)
    (derive : ChangesetId → Except String ChangesetInfo)
    (hheads : raw.heads = [{ commit := h1 }, { commit := h2 }])
    (hne : h1 ≠ h2)
    (hm1 : mapping h1 = some c1) (hd1 : derive c1 = Except.ok { author_date := t1 })
    (hm2 : mapping h2 = some c2) (hd2 : derive c2 = Except.ok { author_date := t2 }) :
    ∃ payload, cast_references_data raw v ts mapping derive = Except.ok payload
      ∧ payload.heads = some [hgIdOf h1, hgIdOf h2]
      ∧ payload.heads_dates = some [(hgIdOf h1, t1), (hgIdOf h2, t2)] := by
  have hch : castHeads mapping derive [{ commit := h1 }, { commit := h2 }] [] []
      = Except.ok ([hgIdOf h1, hgIdOf h2], [(hgIdOf h1, t1), (hgIdOf h2, t2)]) := by
    simp only [castHeads, hm1, hd1, hm2, hd2, AssocMap.insert, hgIdOf, List.nil_append,
      List.cons_append]
    rw [if_neg hne]
  unfold cast_references_data
  rw [hheads, hch]
  exact ⟨_, rfl, rfl, rfl⟩

/-- Witness for the amended C1 at a concrete input: heads `[aa, cc]` with
content addresses `bb`, `dd` and author dates 5, 6 cast to
`heads = [aa, cc]` and `heads_dates = {aa: 5, cc: 6}`. -/
theorem cast_references_data_two_heads_witness :
    ∃ payload, cast_references_data exRawTwoHeads 7 9 exMapping exDerive = Except.ok payload
      ∧ payload.heads = some [hgIdOf "aa", hgIdOf "cc"]
      ∧ payload.heads_dates = some [(hgIdOf "aa", 5), (hgIdOf "cc", 6)] :=
  cast_references_data_two_heads "aa" "cc" "bb" "dd" 5 6 exRawTwoHeads 7 9
    exMapping exDerive rfl (by decide) (by decide) (by decide) (by decide) (by decide)

/-- Looking up the key just inserted returns the inserted value. -/
theorem AssocMap.find?_insert_self {α β : Type} [DecidableEq α]
    (m : AssocMap α β) (k : α) (v : β) :
    AssocMap.find? (AssocMap.insert m k v) k = some v := by
  induction m with
  | nil => simp [AssocMap.insert, AssocMap.find?]
  | cons p m ih =>
    obtain ⟨k', v'⟩ := p
    by_cases h : k' = k
    · simp [AssocMap.insert, AssocMap.find?, h]
    · simp [AssocMap.insert, AssocMap.find?, h, ih]

/-- Inserting one key leaves the lookup of any other key unchanged. -/
theorem AssocMap.find?_insert_of_ne {α β : Type} [DecidableEq α]
    (m : AssocMap α β) (k : α) (v : β) (q : α) (hne : ¬ k = q) :
    AssocMap.find? (AssocMap.insert m k v) q = AssocMap.find? m q := by
  induction m with
  | nil => simp [AssocMap.insert, AssocMap.find?, hne]
  | cons p m ih =>
    obtain ⟨k', v'⟩ := p
    by_cases h : k' = k
    · subst h
      simp [AssocMap.insert, AssocMap.find?, hne]
    · simp [AssocMap.insert, AssocMap.find?, h, ih]

/-- The key list of a non-empty map starts with the first entry's key. -/
theorem AssocMap.keys_cons {α β : Type} (k : α) (v : β) (m : AssocMap α β) :
    AssocMap.keys ((k, v) :: m) = k :: AssocMap.keys m := rfl

/-- The keys after an insert: unchanged when the key was present (the entry
is overwritten in place), extended by the key at the end otherwise. -/
theorem AssocMap.keys_insert {α β : Type} [DecidableEq α]
    (m : AssocMap α β) (k : α) (v : β) :
    AssocMap.keys (AssocMap.insert m k v)
      = if k ∈ AssocMap.keys m then AssocMap.keys m else AssocMap.keys m ++ [k] := by
  induction m with
  | nil => simp [AssocMap.insert, AssocMap.keys]
  | cons p m ih =>
    obtain ⟨k', v'⟩ := p
    by_cases h : k' = k
    · subst h
      simp [AssocMap.insert, AssocMap.keys]
    · have hins : AssocMap.insert ((k', v') :: m) k v = (k', v') :: AssocMap.insert m k v := by
        simp [AssocMap.insert, h]
      have hcond : (k ∈ k' :: AssocMap.keys m) ↔ k ∈ AssocMap.keys m := by
        constructor
        · intro hc
          rcases List.mem_cons.mp hc with hc | hc
          · exact absurd hc.symm h
          · exact hc
        · exact List.mem_cons_of_mem k'
      rw [hins, AssocMap.keys_cons, AssocMap.keys_cons, ih]
      by_cases hk : k ∈ AssocMap.keys m
      · rw [if_pos hk, if_pos (hcond.mpr hk)]
      · rw [if_neg hk, if_neg (fun hc => hk (hcond.mp hc))]
        rfl

/-- Insertion preserves distinctness of the keys. -/
theorem AssocMap.nodup_keys_insert {α β : Type} [DecidableEq α]
    (m : AssocMap α β) (k : α) (v : β) (h : (AssocMap.keys m).Nodup) :
    (AssocMap.keys (AssocMap.insert m k v)).Nodup := by
  rw [AssocMap.keys_insert]
  by_cases hk : k ∈ AssocMap.keys m
  · simpa [hk]
  · simp [hk, List.nodup_append, h]

/-- A successful lookup means the key is among the keys. -/
theorem AssocMap.mem_keys_of_find? {α β : Type} [DecidableEq α]
    (m : AssocMap α β) (k : α) (v : β) (h : AssocMap.find? m k = some v) :
    k ∈ AssocMap.keys m := by
  induction m with
  | nil => simp [AssocMap.find?] at h
  | cons p m ih =>
    obtain ⟨k', v'⟩ := p
    by_cases hk : k' = k
    · subst hk
      exact List.mem_cons_self k' (AssocMap.keys m)
    · simp only [AssocMap.find?, if_neg hk] at h
      exact List.mem_cons_of_mem k' (ih h)

/-- A list of bookmark rows none of which carries the name has no last
occurrence of it. -/
theorem lastNamed_eq_none (l : List WorkspaceLocalBookmark) (n : String)
    (h : ∀ bm ∈ l, bm.name ≠ n) : lastNamed l n = none := by
  induction l with
  | nil => rfl
  | cons bm l ih =>
    simp only [lastNamed]
    rw [ih (fun b hb => h b (List.mem_cons_of_mem bm hb))]
    simp [h bm (List.mem_cons_self bm l)]

/-- The last occurrence in a concatenation: the second part wins when it
has one. -/
theorem lastNamed_append (x y : List WorkspaceLocalBookmark) (n : String) :
    lastNamed (x ++ y) n
      = match lastNamed y n with
        | some c => some c
        | none => lastNamed x n := by
  induction x with
  | nil =>
    simp only [List.nil_append, lastNamed]
    cases lastNamed y n <;> rfl
  | cons bm x ih =>
    have ih' : lastNamed (List.append x y) n
        = match lastNamed y n with
          | some c => some c
          | none => lastNamed x n := ih
    simp only [List.cons_append, lastNamed, ih']
    cases lastNamed y n <;> cases lastNamed x n <;> rfl

/-- Folding `HashMap::insert` over bookmark rows: the lookup of a name is
the commit of its last occurrence, falling back to the accumulator. -/
theorem bookmarksFold_find? (l : List WorkspaceLocalBookmark) :
    ∀ (acc : AssocMap String HgId) (n : String),
      AssocMap.find?
          (l.foldl (fun m bm => AssocMap.insert m bm.name (hgIdOf bm.commit)) acc) n
        = match lastNamed l n with
          | some c => some (hgIdOf c)
          | none => AssocMap.find? acc n := by
  induction l with
  | nil => intro acc n; rfl
  | cons bm l ih =>
    intro acc n
    simp only [List.foldl_cons, lastNamed, ih]
    cases hl : lastNamed l n with
    | some c => rfl
    | none =>
      by_cases h : bm.name = n
      · subst h
        simp [AssocMap.find?_insert_self]
      · simp [h, AssocMap.find?_insert_of_ne _ _ _ _ h]

/-- The bookmarks map built by `cast_references_data` has distinct keys. -/
theorem bookmarksFold_nodup_keys (l : List WorkspaceLocalBookmark) :
    ∀ acc : AssocMap String HgId, (AssocMap.keys acc).Nodup →
      (AssocMap.keys
        (l.foldl (fun m bm => AssocMap.insert m bm.name (hgIdOf bm.commit)) acc)).Nodup := by
  induction l with
  | nil => intro acc h; exact h
  | cons bm l ih =>
    intro acc h
    exact ih _ (AssocMap.nodup_keys_insert _ _ _ h)

/-- C10: duplicate local-bookmark names do not make `cast_references_data`
fail (the head loop alone can fail): the payload's bookmarks map holds a
single entry for the duplicated name, and its commit is the one of the
later occurrence in the raw sequence. -/
theorem cast_references_data_duplicate_bookmark_names
    (raw : RawReferencesData) (v : Nat) (ts : Int)
    (mapping : HgChangesetId → Option ChangesetId)
    (derive : ChangesetId → Except String ChangesetInfo)
    (n : String) (c1 c2 : HgChangesetId)
    (pre mid post : List WorkspaceLocalBookmark)
    (hbms : raw.local_bookmarks
      = pre ++ { name := n, commit := c1 }
          :: mid ++ { name := n, commit := c2 } :: post)
    (hpost : ∀ bm ∈ post, bm.name ≠ n)
    (hheads : ∀ h ∈ raw.heads,
      ∃ b info, mapping h.commit = some b ∧ derive b = Except.ok info) :
    ∃ payload m, cast_references_data raw v ts mapping derive = Except.ok payload
      ∧ payload.bookmarks = some m
      ∧ AssocMap.find? m n = some (hgIdOf c2)
      ∧ AssocMap.countKey m n = 1 := by
  obtain ⟨res, hch⟩ := castHeads_ok_of_resolvable mapping derive raw.heads [] [] hheads
  obtain ⟨hs, ds⟩ := res
  have hlast : lastNamed raw.local_bookmarks n = some c2 := by
    rw [hbms]
    have hshape : pre ++ ({ name := n, commit := c1 } : WorkspaceLocalBookmark)
          :: mid ++ ({ name := n, commit := c2 } : WorkspaceLocalBookmark) :: post
        = (pre ++ ({ name := n, commit := c1 } : WorkspaceLocalBookmark) :: mid)
          ++ ({ name := n, commit := c2 } : WorkspaceLocalBookmark) :: post := by
      simp
    rw [hshape, lastNamed_append]
    simp only [lastNamed, lastNamed_eq_none post n hpost]
    simp
  have hfind : AssocMap.find? (bookmarksMapOf raw.local_bookmarks) n
      = some (hgIdOf c2) := by
    rw [bookmarksMapOf, bookmarksFold_find?, hlast]
  have hnodup := bookmarksFold_nodup_keys raw.local_bookmarks [] (by simp [AssocMap.keys])
  have hmem := AssocMap.mem_keys_of_find? _ _ _ hfind
  have hcast : cast_references_data raw v ts mapping derive
      = Except.ok
          { version := v
            heads := some hs
            bookmarks := some (bookmarksMapOf raw.local_bookmarks)
            heads_dates := some ds
            remote_bookmarks := some (raw.remote_bookmarks.map
              (fun rb => { remote := rb.remote, name := rb.name, node := some (hgIdOf rb.commit) }))
            snapshots := some (raw.snapshots.map (fun s => hgIdOf s.commit))
            timestamp := some ts } := by
    unfold cast_references_data
    rw [hch]
  refine ⟨_, bookmarksMapOf raw.local_bookmarks, hcast, rfl, hfind, ?_⟩
  rw [AssocMap.countKey]
  exact List.count_eq_one_of_mem hnodup hmem

/-- Witness for C10 at a concrete input: the raw state whose local
bookmarks are `x → aa` then `x → cc` casts successfully to a bookmarks map
with the single entry `x → cc`, the later occurrence. -/
theorem cast_references_data_duplicate_bookmark_names_witness :
    ∃ payload m,
      cast_references_data exRawDupBookmarks 7 9 exMapping exDerive = Except.ok payload
        ∧ payload.bookmarks = some m
        ∧ AssocMap.find? m "x" = some (hgIdOf "cc")
        ∧ AssocMap.countKey m "x" = 1 :=
  cast_references_data_duplicate_bookmark_names exRawDupBookmarks 7 9 exMapping exDerive
    "x" "aa" "cc" [] [] [] rfl (by simp) (by simp [exRawDupBookmarks])

/-- C7 counterexample: with the include-local-bookmarks flag set and the
workspace holding the single local bookmark row `book → aa`, the fetched
local-bookmark map is keyed by the commit — its key list is `[aa]`, not
the bookmark-name list `[book]` — so local bookmarks are fetched as a
commit→bookmark-names mapping, refuting the claimed name→commit shape
(under which the map's keys would be the bookmark names). -/
theorem fetch_smartlog_local_map_commit_keyed :
    Except.map (fun sl => Option.map AssocMap.keys sl.local_bookmarks)
        (RawSmartlogData.fetch_smartlog_references (Except.ok [])
          (Except.ok (localBookmarksAsMap [{ name := "book", commit := "aa" }]))
          (Except.ok []) [GetSmartlogFlag.AddAllBookmarks])
      = Except.ok (some ["aa"])
    ∧ ¬ (Except.map (fun sl => Option.map AssocMap.keys sl.local_bookmarks)
          (RawSmartlogData.fetch_smartlog_references (Except.ok [])
            (Except.ok (localBookmarksAsMap [{ name := "book", commit := "aa" }]))
            (Except.ok []) [GetSmartlogFlag.AddAllBookmarks])
        = Except.ok (some ["book"])) :=
  ⟨by decide, by decide⟩

/-- C7 (amended): when the include-local-bookmarks flag is set the fetcher
fills the local-bookmark category with the commit-keyed `LocalBookmarksMap`
— a commit→bookmark-names mapping — and when the include-remote-bookmarks
flag is set it fills the remote-bookmark category with the commit-keyed
`RemoteBookmarksMap` — a commit→bookmarks mapping; both maps' keys are
consumed as native commit identifiers by the smartlog flattening. -/
theorem fetch_smartlog_bookmark_map_shapes
    (hs : List WorkspaceHead) (lm : LocalBookmarksMap) (rm : RemoteBookmarksMap)
    (flags : List GetSmartlogFlag)
    (hl : flags.contains GetSmartlogFlag.AddAllBookmarks = true)
    (hr : flags.contains GetSmartlogFlag.AddRemoteBookmarks = true) :
    ∃ sl, RawSmartlogData.fetch_smartlog_references
        (Except.ok hs) (Except.ok lm) (Except.ok rm) flags = Except.ok sl
      ∧ sl.local_bookmarks = some lm
      ∧ sl.remote_bookmarks = some rm
      ∧ sl.collapse_into_vec
          = hs.map (fun head => head.commit) ++ AssocMap.keys rm ++ AssocMap.keys lm := by
  refine ⟨{ heads := hs, local_bookmarks := some lm, remote_bookmarks := some rm },
    ?_, rfl, rfl, ?_⟩
  · have hl' : GetSmartlogFlag.AddAllBookmarks ∈ flags := by simpa using hl
    have hr' : GetSmartlogFlag.AddRemoteBookmarks ∈ flags := by simpa using hr
    simp [RawSmartlogData.fetch_smartlog_references, hl', hr', Bind.bind, Except.bind,
      Pure.pure, Except.pure]
  · simp [RawSmartlogData.collapse_into_vec]

/-- Witness for the amended C7 at a concrete input: with both flags set,
the head `hh`, the local-bookmark row `book → aa` and a remote bookmark at
`cc`, the fetched categories are the commit-keyed maps and the flattening
consumes their keys as commits. -/
theorem fetch_smartlog_bookmark_map_shapes_witness :
    ∃ sl, RawSmartlogData.fetch_smartlog_references
        (Except.ok [{ commit := "hh" }])
        (Except.ok (localBookmarksAsMap [{ name := "book", commit := "aa" }]))
        (Except.ok [("cc", [{ remote := "origin", name := "main", node := some "cc" }])])
        [GetSmartlogFlag.AddAllBookmarks, GetSmartlogFlag.AddRemoteBookmarks]
      = Except.ok sl
      ∧ sl.local_bookmarks = some (localBookmarksAsMap [{ name := "book", commit := "aa" }])
      ∧ sl.remote_bookmarks
          = some [("cc", [{ remote := "origin", name := "main", node := some "cc" }])]
      ∧ sl.collapse_into_vec
          = List.map (fun head => head.commit)
              ([{ commit := "hh" }] : List WorkspaceHead)
            ++ AssocMap.keys
                [("cc", [({ remote := "origin", name := "main", node := some "cc" }
                    : RemoteBookmark)])]
            ++ AssocMap.keys (localBookmarksAsMap [{ name := "book", commit := "aa" }]) :=
  fetch_smartlog_bookmark_map_shapes [{ commit := "hh" }]
    (localBookmarksAsMap [{ name := "book", commit := "aa" }])
    [("cc", [{ remote := "origin", name := "main", node := some "cc" }])]
    [GetSmartlogFlag.AddAllBookmarks, GetSmartlogFlag.AddRemoteBookmarks]
    (by decide) (by decide)
